import Mathlib

/-!
Shallow embedding of the "Game-In-Python" crossing game core
(src/level.py, src/obstacle.py, src/player.py).

Conventions of the embedding:
* Python floats are modelled as rationals (ℚ); Python ints and pygame
  rectangle coordinates as integers (ℤ).
* Python `int(x)` on a float truncates toward zero: `pyInt`.
* Python `//` is floor division: `Int.fdiv`.  C (pygame internal) integer
  division truncates toward zero: `Int.tdiv`.
* pygame `Rect` is `IntRect` (x, y, w, h all ints); `Rect.colliderect` is
  a strict overlap test on both axes; `Rect.inflate(dx, dy)` shifts the
  corner by `- dx/2` (C division) and adds `dx` to the width.
* Randomness (seed counts, candidate positions in `Lane.reset`) is passed
  in explicitly as data, so theorems quantify over every possible draw.
* The sprite / drawing code is presentation-only and not modelled, except
  for the player's collision rectangle, which depends on whether the
  sprite loaded (`hasSprite`).
-/

/-- Python `int()` applied to a float: truncation toward zero. -/
def pyInt (q : ℚ) : ℤ := if 0 ≤ q then q.floor else -((-q).floor)

/-- A pygame `Rect`: integer position and size. -/
structure IntRect where
  x : ℤ
  y : ℤ
  w : ℤ
  h : ℤ
deriving DecidableEq, Repr

/-- pygame `Rect.colliderect`: strict overlap on both axes (touching edges
do not collide, zero-sized rectangles never collide). -/
def collideB (a b : IntRect) : Bool :=
  decide (a.x < b.x + b.w ∧ a.y < b.y + b.h ∧ b.x < a.x + a.w ∧ b.y < a.y + a.h)

/-- `Obstacle` from src/obstacle.py: a moving rectangle with speed and a
normalized direction (the constructor maps any `direction >= 0` to `1`,
else `-1`).  Sprite/color selection is presentation-only and omitted. -/
structure Obstacle where
  rect : IntRect
  speed : ℚ
  direction : ℤ
deriving DecidableEq, Repr

/-- `Obstacle.__init__`: stores the rect and speed, normalizes direction. -/
def mkObstacle (rect : IntRect) (speed : ℚ) (direction : ℤ) : Obstacle :=
  { rect := rect, speed := speed, direction := if 0 ≤ direction then 1 else -1 }

/-- `Obstacle.update(dt)`: `self.rect.x += int(self.direction * self.speed * dt)`. -/
def Obstacle.update (dt : ℚ) (o : Obstacle) : Obstacle :=
  { o with rect := { o.rect with x := o.rect.x + pyInt ((o.direction : ℚ) * o.speed * dt) } }

/-- The shrunken hitbox used in `Level.update`:
`obs.rect.inflate(-pad_x, -pad_y)` with `pad_x = max(6, int(w*0.16))` and
`pad_y = max(4, int(h*0.20))`.  pygame's `inflate` computes the new corner
as `x - dx/2` with C (truncating) division. -/
def obstacleHitbox (o : Obstacle) : IntRect :=
  let padX : ℤ := max 6 (pyInt ((o.rect.w : ℚ) * (16/100)))
  let padY : ℤ := max 4 (pyInt ((o.rect.h : ℚ) * (20/100)))
  { x := o.rect.x - Int.tdiv (-padX) 2
    y := o.rect.y - Int.tdiv (-padY) 2
    w := o.rect.w + (-padX)
    h := o.rect.h + (-padY) }

/-- `Lane` from src/obstacle.py: geometry strip, movement parameters,
obstacle dimensions, minimum gap, owned obstacles and the spawn timer. -/
structure Lane where
  rect : IntRect
  direction : ℤ
  speed : ℚ
  spawnEvery : ℚ
  obstacleWidth : ℤ
  obstacleHeight : ℤ
  minGap : ℤ
  obstacles : List Obstacle
  spawnTimer : ℚ
deriving DecidableEq, Repr

/-- `Lane.__init__`: normalizes direction, starts with no obstacles. -/
def mkLane (rect : IntRect) (direction : ℤ) (speed spawnEvery : ℚ)
    (obstacleWidth obstacleHeight minGap : ℤ) : Lane :=
  { rect := rect
    direction := if 0 ≤ direction then 1 else -1
    speed := speed
    spawnEvery := spawnEvery
    obstacleWidth := obstacleWidth
    obstacleHeight := obstacleHeight
    minGap := minGap
    obstacles := []
    spawnTimer := 0 }

/-- Vertical position of obstacles in a lane:
`self.rect.centery - self.obstacle_height // 2` (pygame `centery` uses C
division, Python `//` is floor division). -/
def Lane.seedY (ln : Lane) : ℤ :=
  (ln.rect.y + Int.tdiv ln.rect.h 2) - Int.fdiv ln.obstacleHeight 2

/-- Stable insertion of an obstacle into a list sorted by `rect.x`. -/
def insertByX (o : Obstacle) : List Obstacle → List Obstacle
  | [] => [o]
  | b :: l => if o.rect.x ≤ b.rect.x then o :: b :: l else b :: insertByX o l

/-- Stable sort by `rect.x`, modelling Python's `list.sort(key=lambda o: o.rect.x)`. -/
def sortByX : List Obstacle → List Obstacle
  | [] => []
  | o :: l => insertByX o (sortByX l)

/-- Stable insertion for integer candidate positions. -/
def insertInt (x : ℤ) : List ℤ → List ℤ
  | [] => [x]
  | b :: l => if x ≤ b then x :: b :: l else b :: insertInt x l

/-- Sort of the integer candidate positions, modelling `candidates.sort()`. -/
def sortInt : List ℤ → List ℤ
  | [] => []
  | x :: l => insertInt x (sortInt l)

/-- An obstacle seeded by `Lane.reset` at candidate position `x`. -/
def Lane.seedOb (ln : Lane) (x : ℤ) : Obstacle :=
  mkObstacle { x := x, y := ln.seedY, w := ln.obstacleWidth, h := ln.obstacleHeight }
    ln.speed ln.direction

/-- The greedy seeding loop of `Lane.reset`: walk the sorted candidates,
stop once `seedCount` rectangles are placed, accept a candidate only if it
keeps `min_gap` to every already placed rectangle. -/
def Lane.seedGreedy (ln : Lane) (seedCount : ℕ) : List ℤ → List Obstacle → List Obstacle
  | [], acc => acc
  | x :: xs, acc =>
    if seedCount ≤ acc.length then acc
    else
      let r := ln.seedOb x
      if acc.all (fun p =>
          decide (r.rect.x + r.rect.w + ln.minGap ≤ p.rect.x) ||
          decide (p.rect.x + p.rect.w + ln.minGap ≤ r.rect.x)) then
        Lane.seedGreedy ln seedCount xs (acc ++ [r])
      else
        Lane.seedGreedy ln seedCount xs acc

/-- `Lane.reset()`: clear the lane, then seed `seedCount` (drawn 1..3 at
random) obstacles from the randomly drawn `candidates`, sorted ascending,
greedily keeping `min_gap`; finally sort the obstacles by x. -/
def Lane.reset (candidates : List ℤ) (seedCount : ℕ) (ln : Lane) : Lane :=
  { ln with
    spawnTimer := 0
    obstacles := sortByX (ln.seedGreedy seedCount (sortInt candidates) []) }

/-- Leftmost `rect.left` among the obstacles
(`min(self.obstacles, key=lambda o: o.rect.left)`), `none` when empty. -/
def minLeft : List Obstacle → Option ℤ
  | [] => none
  | o :: os => some (os.foldl (fun m p => min m p.rect.x) o.rect.x)

/-- Rightmost `rect.right` among the obstacles
(`max(self.obstacles, key=lambda o: o.rect.right)`), `none` when empty. -/
def maxRight : List Obstacle → Option ℤ
  | [] => none
  | o :: os => some (os.foldl (fun m p => max m (p.rect.x + p.rect.w)) (o.rect.x + o.rect.w))

/-- `Lane._can_spawn(screen_width)`: the offscreen entry point must be at
least `min_gap` away from the nearest existing obstacle. -/
def Lane.canSpawn (screenWidth : ℤ) (ln : Lane) : Bool :=
  if 0 < ln.direction then
    match minLeft ln.obstacles with
    | none => true
    | some nl => decide (ln.minGap ≤ nl - (-ln.obstacleWidth - 20))
  else
    match maxRight ln.obstacles with
    | none => true
    | some nr => decide (ln.minGap ≤ (screenWidth + 20) - nr)

/-- The obstacle created by `Lane._spawn(screen_width)`: placed at the
offscreen base position, pushed further out if needed so that it keeps
`min_gap` from the nearest existing obstacle. -/
def Lane.spawnOb (screenWidth : ℤ) (ln : Lane) : Obstacle :=
  let x : ℤ :=
    if 0 < ln.direction then
      match minLeft ln.obstacles with
      | none => -ln.obstacleWidth - 20
      | some nl => min (-ln.obstacleWidth - 20) (nl - ln.minGap - ln.obstacleWidth)
    else
      match maxRight ln.obstacles with
      | none => screenWidth + 20
      | some nr => max (screenWidth + 20) (nr + ln.minGap)
  mkObstacle { x := x, y := ln.seedY, w := ln.obstacleWidth, h := ln.obstacleHeight }
    ln.speed ln.direction

/-- Gap-correction walk for a right-moving lane, on the sorted list
reversed (front = rightmost first): clamp each trailing obstacle's right
edge to `front.left - min_gap`. -/
def fixBack (g : ℤ) : Obstacle → List Obstacle → List Obstacle
  | _, [] => []
  | front, b :: rest =>
    let b' := if front.rect.x - g < b.rect.x + b.rect.w then
        { b with rect := { b.rect with x := front.rect.x - g - b.rect.w } }
      else b
    b' :: fixBack g b' rest

/-- Gap-correction walk for a left-moving lane, on the sorted list
(front = leftmost first): clamp each trailing obstacle's left edge to
`front.right + min_gap`. -/
def fixFwd (g : ℤ) : Obstacle → List Obstacle → List Obstacle
  | _, [] => []
  | front, b :: rest =>
    let b' := if b.rect.x < front.rect.x + front.rect.w + g then
        { b with rect := { b.rect with x := front.rect.x + front.rect.w + g } }
      else b
    b' :: fixFwd g b' rest

/-- The per-tick gap-correction pass of `Lane.update`: sort by x, then walk
from the lane's front backwards pushing trailing obstacles out to preserve
`min_gap`. -/
def gapFixList (direction g : ℤ) (obs : List Obstacle) : List Obstacle :=
  if 0 < direction then
    match (sortByX obs).reverse with
    | [] => []
    | f :: rest => (f :: fixBack g f rest).reverse
  else
    match sortByX obs with
    | [] => []
    | f :: rest => f :: fixFwd g f rest

/-- `Lane.update(dt, screen_width)`: move every obstacle, run the
gap-correction pass (only when more than one obstacle), cull obstacles
more than 200 px beyond the relevant screen edge, then accumulate the
spawn timer and attempt a spawn when it fires. -/
def laneMoved (dt : ℚ) (ln : Lane) : List Obstacle :=
  ln.obstacles.map (Obstacle.update dt)

def laneFixed (dt : ℚ) (ln : Lane) : List Obstacle :=
  if 1 < (laneMoved dt ln).length then gapFixList ln.direction ln.minGap (laneMoved dt ln)
  else laneMoved dt ln

def laneCulled (dt : ℚ) (screenWidth : ℤ) (ln : Lane) : List Obstacle :=
  if 0 < ln.direction then (laneFixed dt ln).filter (fun o => decide (o.rect.x < screenWidth + 200))
  else (laneFixed dt ln).filter (fun o => decide (-200 < o.rect.x + o.rect.w))

def Lane.update (dt : ℚ) (screenWidth : ℤ) (ln : Lane) : Lane :=
  let culled := laneCulled dt screenWidth ln
  let ln2 := { ln with obstacles := culled }
  if ln.spawnEvery ≤ ln.spawnTimer + dt then
    if Lane.canSpawn screenWidth ln2 then
      { ln2 with spawnTimer := 0, obstacles := culled ++ [Lane.spawnOb screenWidth ln2] }
    else { ln2 with spawnTimer := 0 }
  else { ln2 with spawnTimer := ln.spawnTimer + dt }

/-- Directional keys recognized by the player (`K_UP`/`K_w` collapse to
`up`, etc.); `other` stands for every other key. -/
inductive PKey where
  | up
  | down
  | left
  | right
  | other
deriving DecidableEq, Repr

/-- A pygame event as seen by `Player.update`: a key-down with its key, or
any other event (key-ups, mouse, ...). -/
inductive PEvent where
  | keyDown (k : PKey)
  | otherEvent
deriving DecidableEq, Repr

/-- Whether an event is a directional key-down. -/
def PEvent.isDirDown : PEvent → Bool
  | .keyDown .up => true
  | .keyDown .down => true
  | .keyDown .left => true
  | .keyDown .right => true
  | _ => false

/-- The (dx, dy) a key-down contributes: `±step` along the matching axis,
`(0, 0)` for a non-directional key. -/
def dirDelta (k : PKey) (step : ℤ) : ℤ × ℤ :=
  match k with
  | .up => (0, -step)
  | .down => (0, step)
  | .left => (-step, 0)
  | .right => (step, 0)
  | .other => (0, 0)

/-- The fixed delay between accepted step moves (`_cooldown_time = 0.09`). -/
def playerCooldownTime : ℚ := 9/100

/-- `Player` from src/player.py.  `hasSprite` records whether the sprite
loaded (it decides which collision rectangle is used). -/
structure Player where
  startX : ℤ
  startY : ℤ
  radius : ℤ
  speed : ℚ
  step : ℤ
  boundsLeft : ℤ
  boundsTop : ℤ
  boundsW : ℤ
  boundsH : ℤ
  x : ℚ
  y : ℚ
  cooldown : ℚ
  hasSprite : Bool
deriving DecidableEq, Repr

/-- `Player.reset()`: restore the start position and zero the cooldown. -/
def Player.reset (p : Player) : Player :=
  { p with x := (p.startX : ℚ), y := (p.startY : ℚ), cooldown := 0 }

/-- The cooldown decrement at the top of `Player.update`:
`self._move_cooldown = max(0.0, self._move_cooldown - dt)`. -/
def Player.decCd (dt : ℚ) (p : Player) : Player :=
  { p with cooldown := max 0 (p.cooldown - dt) }

/-- The event loop of `Player.update`: on a key-down while the cooldown is
`≤ 0`, apply the key's step delta if it is directional and re-arm the
cooldown; everything else is skipped. -/
def Player.procEvents : List PEvent → Player → Player
  | [], p => p
  | PEvent.otherEvent :: es, p => Player.procEvents es p
  | PEvent.keyDown k :: es, p =>
    if p.cooldown ≤ 0 then
      let d := dirDelta k p.step
      if d.1 ≠ 0 ∨ d.2 ≠ 0 then
        Player.procEvents es
          { p with x := p.x + (d.1 : ℚ), y := p.y + (d.2 : ℚ), cooldown := playerCooldownTime }
      else Player.procEvents es p
    else Player.procEvents es p

/-- The clamp at the end of `Player.update`: keep the center within the
playfield bounds minus the radius. -/
def Player.clampPos (p : Player) : Player :=
  { p with
    x := max ((p.boundsLeft + p.radius : ℤ) : ℚ) (min ((p.boundsLeft + p.boundsW - p.radius : ℤ) : ℚ) p.x)
    y := max ((p.boundsTop + p.radius : ℤ) : ℚ) (min ((p.boundsTop + p.boundsH - p.radius : ℤ) : ℚ) p.y) }

/-- `Player.update(dt, events)`: decrement the cooldown, process the
frame's events in order, clamp to bounds. -/
def Player.update (dt : ℚ) (es : List PEvent) (p : Player) : Player :=
  Player.clampPos (Player.procEvents es (Player.decCd dt p))

/-- `Player.rect`: the collision rectangle.  With a sprite of size
`(2r+10, 2r+10)` it is shrunk by 28% / 32%; without a sprite a square
derived from the radius shrunk by 35% is used. -/
def Player.rect (p : Player) : IntRect :=
  if p.hasSprite then
    let w := 2 * p.radius + 10
    let h := 2 * p.radius + 10
    let shrinkX := pyInt ((w : ℚ) * (28/100))
    let shrinkY := pyInt ((h : ℚ) * (32/100))
    let cw := max 8 (w - shrinkX)
    let ch := max 8 (h - shrinkY)
    { x := pyInt (p.x - (cw : ℚ) / 2), y := pyInt (p.y - (ch : ℚ) / 2), w := cw, h := ch }
  else
    let shrink := max 0 (pyInt ((p.radius : ℚ) * (35/100)))
    let cr := max 6 (p.radius - shrink)
    { x := pyInt (p.x - (cr : ℚ)), y := pyInt (p.y - (cr : ℚ)), w := 2 * cr, h := 2 * cr }

/-- One lane's entry in the generated level configuration. -/
structure LaneCfg where
  direction : ℤ
  speed : ℚ
  spawnEvery : ℚ
  width : ℤ
  gapMin : ℤ
deriving DecidableEq, Repr

/-- The generated level configuration (`_make_level`'s returned dict; the
purely cosmetic `name` is omitted). -/
structure LevelCfg where
  laneCount : ℤ
  laneHeight : ℤ
  finishPadding : ℤ
  playerStep : ℤ
  playerSpeed : ℚ
  threeStar : ℚ
  twoStar : ℚ
  lanes : List LaneCfg
deriving DecidableEq, Repr

/-- The body of `_make_level` after the clamp `n = max(1, min(10, int(level_num)))`:
derive every lane parameter and the star thresholds from `n`. -/
def makeLevelAt (n : ℤ) : LevelCfg :=
  let laneHeight := 70 - (n - 1)
  let laneCount := 5 + n
  let threeStar : ℚ := max 8 (13 - ((n : ℚ) - 1) * (40/100))
  let twoStar : ℚ := max 12 (20 - ((n : ℚ) - 1) * (45/100))
  { laneCount := laneCount
    laneHeight := laneHeight
    finishPadding := max 22 (32 - n)
    playerStep := laneHeight
    playerSpeed := ((420 + (n - 1) * 10 : ℤ) : ℚ)
    threeStar := threeStar
    twoStar := twoStar
    lanes := (List.range laneCount.toNat).map (fun (i : ℕ) =>
      { direction := if i % 2 = 0 then 1 else -1
        speed := ((170 + (n - 1) * 28 + (i : ℤ) * 6 : ℤ) : ℚ)
        spawnEvery := max (55/100) (125/100 - ((n : ℚ) - 1) * (6/100) - (i : ℚ) * (1/100))
        width := max 70 (min 130 (120 - (n - 1) * 3))
        gapMin := max 95 (165 - (n - 1) * 6 - (i : ℤ) * 1) }) }

/-- `_make_level(level_num)` from src/level.py: clamp the difficulty index
to 1..10, then generate the configuration. -/
def makeLevel (levelNum : ℤ) : LevelCfg :=
  makeLevelAt (max 1 (min 10 levelNum))

/-- The `Level` session from src/level.py: configuration, layout, player,
lanes and the running/won/lost flags. -/
structure Level where
  cfg : LevelCfg
  screenW : ℤ
  screenH : ℤ
  laneHeight : ℤ
  laneCount : ℤ
  finishPadding : ℤ
  safeZone : ℤ
  player : Player
  lanes : List Lane
  timeElapsed : ℚ
  running : Bool
  won : Bool
  lost : Bool
deriving DecidableEq, Repr

/-- `Level.__init__(config, screen_size)`: layout with a bottom safe zone
of one lane height, the player centered in it, and one `Lane` per lane
config.  The lane's obstacle size is derived from `lane_height` alone
(`car_height = max(26, int(lane_height*1.15))`,
`car_width = max(90, int(car_height*1.49))`). -/
def mkLevel (cfg : LevelCfg) (screenW screenH : ℤ) (hasSprite : Bool) : Level :=
  let laneHeight := cfg.laneHeight
  let safeZone := laneHeight
  let startX := Int.fdiv screenW 2
  let startY := screenH - Int.fdiv safeZone 2
  let player : Player :=
    { startX := startX, startY := startY, radius := 18, speed := cfg.playerSpeed
      step := laneHeight, boundsLeft := 0, boundsTop := 0, boundsW := screenW, boundsH := screenH
      x := (startX : ℚ), y := (startY : ℚ), cooldown := 0, hasSprite := hasSprite }
  let lanes := cfg.lanes.enum.map (fun ic =>
    let laneYCenter : ℚ := (screenH : ℚ) - (safeZone : ℚ) - ((ic.1 : ℚ) + 1/2) * (laneHeight : ℚ)
    let laneRect : IntRect :=
      { x := 0, y := pyInt (laneYCenter - (laneHeight : ℚ) / 2), w := screenW, h := laneHeight }
    let carHeight := max 26 (pyInt ((laneHeight : ℚ) * (115/100)))
    let carWidth := max 90 (pyInt ((carHeight : ℚ) * (149/100)))
    mkLane laneRect ic.2.direction ic.2.speed ic.2.spawnEvery carWidth carHeight ic.2.gapMin)
  { cfg := cfg, screenW := screenW, screenH := screenH, laneHeight := laneHeight
    laneCount := cfg.laneCount, finishPadding := cfg.finishPadding, safeZone := safeZone
    player := player, lanes := lanes, timeElapsed := 0
    running := false, won := false, lost := false }

/-- `Level.start()`: zero the clock, raise the running flag, clear the
won/lost flags, reset the player and re-seed every lane.  `seeds i` is the
random draw (candidate positions, seed count) used by lane `i`. -/
def Level.start (seeds : ℕ → List ℤ × ℕ) (lv : Level) : Level :=
  { lv with
    timeElapsed := 0
    running := true
    won := false
    lost := false
    player := Player.reset lv.player
    lanes := lv.lanes.enum.map (fun il => Lane.reset (seeds il.1).1 (seeds il.1).2 il.2) }

/-- `Level._finish_line_y()`: the top edge of the road section. -/
def Level.finishLineY (lv : Level) : ℤ :=
  lv.screenH - lv.safeZone - lv.laneCount * lv.laneHeight

/-- Whether any obstacle of this lane's (shrunken) hitbox overlaps the
player's collision rectangle. -/
def laneHit (pr : IntRect) (ln : Lane) : Bool :=
  ln.obstacles.any (fun o => collideB pr (obstacleHitbox o))

/-- Whether any obstacle in any lane collides with the player. -/
def anyCollision (pr : IntRect) (lanes : List Lane) : Bool :=
  lanes.any (laneHit pr)

/-- `Level.update(dt, events)`: a no-op unless running and neither won nor
lost; otherwise advance the clock, the player and every lane, then check
collisions (losing stops the tick before the win check), then check
whether the player reached the finish line. -/
def Level.update (dt : ℚ) (es : List PEvent) (lv : Level) : Level :=
  if lv.running = false ∨ lv.won = true ∨ lv.lost = true then lv
  else
    let t := lv.timeElapsed + dt
    let p := Player.update dt es lv.player
    let lanes := lv.lanes.map (Lane.update dt lv.screenW)
    if anyCollision (Player.rect p) lanes = true then
      { lv with timeElapsed := t, player := p, lanes := lanes, lost := true, running := false }
    else if p.y ≤ ((Level.finishLineY lv : ℤ) : ℚ) then
      { lv with timeElapsed := t, player := p, lanes := lanes, won := true, running := false }
    else
      { lv with timeElapsed := t, player := p, lanes := lanes }

/-- `Level.stars_earned`: 0 unless won; otherwise 3/2/1 by comparing the
elapsed time against the 3-star and 2-star thresholds. -/
def Level.starsEarned (lv : Level) : ℕ :=
  if lv.won = true then
    if lv.timeElapsed ≤ lv.cfg.threeStar then 3
    else if lv.timeElapsed ≤ lv.cfg.twoStar then 2
    else 1
  else 0

/-- Two obstacles are separated by at least `g` along the x axis: the one
behind ends at least `g` before the one ahead starts. -/
def sepOb (g : ℤ) (a b : Obstacle) : Prop :=
  a.rect.x + a.rect.w + g ≤ b.rect.x ∨ b.rect.x + b.rect.w + g ≤ a.rect.x

/-- The lane invariant: all pairs of obstacles keep the lane's `min_gap`. -/
def laneSeparated (ln : Lane) : Prop :=
  ln.obstacles.Pairwise (sepOb ln.minGap)

/-- A player position the bounds clamp leaves unchanged. -/
def inBoundsP (p : Player) : Prop := Player.clampPos p = p

/-- Fold a list of `(dt, events)` frames through `Player.update`. -/
def runPlayerCalls (calls : List (ℚ × List PEvent)) (p : Player) : Player :=
  calls.foldl (fun q c => Player.update c.1 c.2 q) p

/-! ## Helper lemmas -/

theorem pyInt_floor (q : ℚ) : pyInt q = if 0 ≤ q then ⌊q⌋ else -(⌊-q⌋) := rfl

theorem starsEarned_cases (lv : Level) :
    (lv.won = false → lv.starsEarned = 0) ∧
    (lv.won = true → lv.timeElapsed ≤ lv.cfg.threeStar → lv.starsEarned = 3) ∧
    (lv.won = true → lv.cfg.threeStar < lv.timeElapsed → lv.timeElapsed ≤ lv.cfg.twoStar →
      lv.starsEarned = 2) ∧
    (lv.won = true → lv.cfg.threeStar ≤ lv.cfg.twoStar → lv.cfg.twoStar < lv.timeElapsed →
      lv.starsEarned = 1) := by
  unfold Level.starsEarned
  refine ⟨fun h => by simp [h], fun hw h3 => by simp [hw, h3], fun hw h3 h2 => ?_, fun hw ht h2 => ?_⟩
  · simp [hw, h2, not_le.mpr h3]
  · have h3' : ¬ lv.timeElapsed ≤ lv.cfg.threeStar := not_le.mpr (lt_of_le_of_lt ht h2)
    simp [hw, h3', not_le.mpr h2]

/-! ## Claims -/

/-- C3 (counterexample): the claim that `advance(dt)` moves the obstacle by
exactly `direction * speed * dt` fails, because the code adds
`int(direction * speed * dt)` to an integer rectangle coordinate: with
`x = 0`, `direction = 1`, `speed = 170`, `dt = 1/1000` the code leaves the
obstacle at `x = 0`, while the exact update would give `0.17`. -/
theorem c3_advance_exact_counterexample :
    ¬ (((Obstacle.update (1/1000) (mkObstacle ⟨0, 0, 50, 30⟩ 170 1)).rect.x : ℚ) =
        ((mkObstacle ⟨0, 0, 50, 30⟩ 170 1).rect.x : ℚ) +
          ((mkObstacle ⟨0, 0, 50, 30⟩ 170 1).direction : ℚ) *
            (mkObstacle ⟨0, 0, 50, 30⟩ 170 1).speed * (1/1000)) := by
  simp only [Obstacle.update, mkObstacle]
  norm_num [pyInt_floor]

/-- C3 (amended): for every obstacle and every `dt`, `advance(dt)` updates
the horizontal position to exactly `x + int(direction * speed * dt)` — the
displacement truncated toward zero to an integer — and changes no other
field (y, width, height, speed, direction are untouched). -/
theorem c3_advance_truncated (o : Obstacle) (dt : ℚ) :
    (Obstacle.update dt o).rect.x = o.rect.x + pyInt ((o.direction : ℚ) * o.speed * dt) ∧
    (Obstacle.update dt o).rect.y = o.rect.y ∧
    (Obstacle.update dt o).rect.w = o.rect.w ∧
    (Obstacle.update dt o).rect.h = o.rect.h ∧
    (Obstacle.update dt o).speed = o.speed ∧
    (Obstacle.update dt o).direction = o.direction :=
  ⟨rfl, rfl, rfl, rfl, rfl, rfl⟩

/-- C9: for every difficulty index `k` in [1,10] the generated 3-star
threshold `max(8.0, 13.0 − (n−1)·0.4)` is at most the generated 2-star
threshold `max(12.0, 20.0 − (n−1)·0.45)`. -/
theorem c9_star_thresholds (k : ℤ) (h1 : 1 ≤ k) (h10 : k ≤ 10) :
    (makeLevel k).threeStar ≤ (makeLevel k).twoStar := by
  have hn1 : (1 : ℤ) ≤ max 1 (min 10 k) := le_max_left 1 (min 10 k)
  have hn10 : max 1 (min 10 k) ≤ 10 := by omega
  have hq : ((max 1 (min 10 k) : ℤ) : ℚ) ≤ 10 := by exact_mod_cast hn10
  show (makeLevelAt (max 1 (min 10 k))).threeStar ≤ (makeLevelAt (max 1 (min 10 k))).twoStar
  unfold makeLevelAt
  refine max_le (le_trans (by norm_num) (le_max_left 12 _)) (le_trans ?_ (le_max_right 12 _))
  linarith

/-- C9 witness: instantiated at `k = 10`. -/
theorem c9_star_thresholds_witness :
    (makeLevel 10).threeStar ≤ (makeLevel 10).twoStar :=
  c9_star_thresholds 10 (by norm_num) (by norm_num)

/-- C7: `stars_earned` is 0 whenever the session is not won (so non-zero
only when won); when won with elapsed time `t` and thresholds `t3 ≤ t2`:
`t ≤ t3` gives 3 stars, `t3 < t ≤ t2` gives 2, `t > t2` gives 1; and under
a fixed configuration the star count is non-increasing in elapsed time. -/
theorem c7_stars_earned :
    (∀ lv : Level, lv.won = false → lv.starsEarned = 0) ∧
    (∀ lv : Level, lv.starsEarned ≠ 0 → lv.won = true) ∧
    (∀ lv : Level, lv.cfg.threeStar ≤ lv.cfg.twoStar → lv.won = true →
      (lv.timeElapsed ≤ lv.cfg.threeStar → lv.starsEarned = 3) ∧
      (lv.cfg.threeStar < lv.timeElapsed → lv.timeElapsed ≤ lv.cfg.twoStar → lv.starsEarned = 2) ∧
      (lv.cfg.twoStar < lv.timeElapsed → lv.starsEarned = 1)) ∧
    (∀ lv lv' : Level, lv.cfg = lv'.cfg → lv.won = true → lv'.won = true →
      lv.timeElapsed ≤ lv'.timeElapsed → lv'.starsEarned ≤ lv.starsEarned) := by
  refine ⟨fun lv h => (starsEarned_cases lv).1 h, fun lv h => ?_, fun lv hord hw => ?_, ?_⟩
  · by_contra hn
    exact h ((starsEarned_cases lv).1 (by simpa using hn))
  · exact ⟨fun h3 => (starsEarned_cases lv).2.1 hw h3,
      fun hgt hle => (starsEarned_cases lv).2.2.1 hw hgt hle,
      fun hgt => (starsEarned_cases lv).2.2.2 hw hord hgt⟩
  · intro lv lv' hcfg hw hw' hle
    unfold Level.starsEarned
    rw [hcfg]
    simp only [hw, hw', if_true]
    rcases le_or_lt lv'.timeElapsed lv'.cfg.threeStar with h1 | h1
    · rw [if_pos h1, if_pos (le_trans hle h1)]
    · rcases le_or_lt lv'.timeElapsed lv'.cfg.twoStar with h2 | h2
      · rw [if_neg (not_le.mpr h1), if_pos h2]
        split_ifs with ha hb
        · norm_num
        · norm_num
        · exact absurd (le_trans hle h2) hb
      · rw [if_neg (not_le.mpr h1), if_neg (not_le.mpr h2)]
        split_ifs <;> norm_num

/-- C7 witness: a concrete won session with thresholds 10 and 15 and
elapsed time 12 earns 2 stars. -/
theorem c7_stars_earned_witness :
    ({ cfg := { laneCount := 6, laneHeight := 70, finishPadding := 31, playerStep := 70,
                playerSpeed := 420, threeStar := 10, twoStar := 15, lanes := [] },
       screenW := 900, screenH := 700, laneHeight := 70, laneCount := 6, finishPadding := 31,
       safeZone := 70,
       player := { startX := 450, startY := 665, radius := 18, speed := 420, step := 70,
                   boundsLeft := 0, boundsTop := 0, boundsW := 900, boundsH := 700,
                   x := 450, y := 665, cooldown := 0, hasSprite := true },
       lanes := [], timeElapsed := 12, running := false, won := true,
       lost := false } : Level).starsEarned = 2 := by
  refine ((c7_stars_earned.2.2.1 _ (by norm_num) rfl).2.1 (by norm_num) (by norm_num))

/-- C2: for every integer difficulty index `k` the generator returns the
configuration determined by `n = max(1, min(10, k))` (so out-of-range
indices behave as the nearest bound), with `lane_height = 70 − (n−1)`,
`lane_count = 5 + n`, and for each lane `i`: direction `+1` for even `i`
and `−1` for odd `i`, `speed = 170 + (n−1)·28 + i·6`,
`spawn_every = max(0.55, 1.25 − (n−1)·0.06 − i·0.01)`, width
`120 − (n−1)·3` clamped to `[70, 130]`, and
`gap_min = max(95, 165 − (n−1)·6 − i)`; consequently every lane has
`gap_min ≥ 95` and `spawn_every ≥ 0.55`. -/
theorem c2_generator_formulas (k n : ℤ) (hn : n = max 1 (min 10 k)) :
    makeLevel k = makeLevel n ∧
    (makeLevel k).laneHeight = 70 - (n - 1) ∧
    (makeLevel k).laneCount = 5 + n ∧
    (makeLevel k).lanes.length = (5 + n).toNat ∧
    ∀ i : ℕ, ∀ hi : i < (makeLevel k).lanes.length,
      ((makeLevel k).lanes.get ⟨i, hi⟩).direction = (if i % 2 = 0 then 1 else -1) ∧
      ((makeLevel k).lanes.get ⟨i, hi⟩).speed = ((170 + (n - 1) * 28 + (i : ℤ) * 6 : ℤ) : ℚ) ∧
      ((makeLevel k).lanes.get ⟨i, hi⟩).spawnEvery =
        max (55/100) (125/100 - ((n : ℚ) - 1) * (6/100) - (i : ℚ) * (1/100)) ∧
      ((makeLevel k).lanes.get ⟨i, hi⟩).width = max 70 (min 130 (120 - (n - 1) * 3)) ∧
      ((makeLevel k).lanes.get ⟨i, hi⟩).gapMin = max 95 (165 - (n - 1) * 6 - (i : ℤ)) ∧
      95 ≤ ((makeLevel k).lanes.get ⟨i, hi⟩).gapMin ∧
      (55/100 : ℚ) ≤ ((makeLevel k).lanes.get ⟨i, hi⟩).spawnEvery := by
  subst hn
  have hclamp : max 1 (min 10 (max 1 (min 10 k))) = max 1 (min 10 k) := by omega
  refine ⟨?_, ?_, ?_, ?_, ?_⟩
  · show makeLevelAt _ = makeLevelAt _
    rw [hclamp]
  · rfl
  · rfl
  · simp [makeLevel, makeLevelAt]
  · intro i hi
    simp only [makeLevel, makeLevelAt, List.get_eq_getElem, List.getElem_map, List.getElem_range]
    refine ⟨trivial, trivial, trivial, trivial, by ring_nf, le_max_left _ _, le_max_left _ _⟩

/-- C2 witness: instantiated at `k = 12` (clamped to `n = 10`), lane 0. -/
theorem c2_generator_formulas_witness :
    (makeLevel 12).laneHeight = 70 - (10 - 1) ∧
    (makeLevel 12).laneCount = 5 + 10 ∧
    ∀ hi : 0 < (makeLevel 12).lanes.length,
      ((makeLevel 12).lanes.get ⟨0, hi⟩).gapMin = max 95 (165 - (10 - 1) * 6 - (0 : ℤ)) := by
  obtain ⟨-, h1, h2, -, h4⟩ := c2_generator_formulas 12 10 (by norm_num)
  exact ⟨h1, h2, fun hi => (h4 0 hi).2.2.2.2.1⟩

theorem levelUpdate_noop (lv : Level) (dt : ℚ) (es : List PEvent)
    (h : lv.running = false ∨ lv.won = true ∨ lv.lost = true) :
    Level.update dt es lv = lv := by
  unfold Level.update
  rw [if_pos h]

theorem levelUpdate_run_eq (lv : Level) (dt : ℚ) (es : List PEvent)
    (hr : lv.running = true) (hw : lv.won = false) (hl : lv.lost = false) :
    Level.update dt es lv =
      (if anyCollision (Player.rect (Player.update dt es lv.player))
            (lv.lanes.map (Lane.update dt lv.screenW)) = true then
        { lv with timeElapsed := lv.timeElapsed + dt, player := Player.update dt es lv.player,
                  lanes := lv.lanes.map (Lane.update dt lv.screenW),
                  lost := true, running := false }
      else if (Player.update dt es lv.player).y ≤ ((Level.finishLineY lv : ℤ) : ℚ) then
        { lv with timeElapsed := lv.timeElapsed + dt, player := Player.update dt es lv.player,
                  lanes := lv.lanes.map (Lane.update dt lv.screenW),
                  won := true, running := false }
      else
        { lv with timeElapsed := lv.timeElapsed + dt, player := Player.update dt es lv.player,
                  lanes := lv.lanes.map (Lane.update dt lv.screenW) }) := by
  unfold Level.update
  rw [if_neg (by simp [hr, hw, hl])]

/-- C6: the won and lost flags are never both true, and each is terminal:
once won or lost, `Level.update` is a no-op (the whole state — elapsed
time, flags, player, lanes — is unchanged), until `start()` clears the
flags again. -/
theorem c6_terminal_flags :
    (∀ (lv : Level) (dt : ℚ) (es : List PEvent),
      lv.won = true ∨ lv.lost = true → Level.update dt es lv = lv) ∧
    (∀ (lv : Level) (dt : ℚ) (es : List PEvent),
      ¬(lv.won = true ∧ lv.lost = true) →
      ¬((Level.update dt es lv).won = true ∧ (Level.update dt es lv).lost = true)) ∧
    (∀ (lv : Level) (seeds : ℕ → List ℤ × ℕ),
      (Level.start seeds lv).won = false ∧ (Level.start seeds lv).lost = false ∧
      (Level.start seeds lv).running = true ∧ (Level.start seeds lv).timeElapsed = 0) := by
  refine ⟨fun lv dt es h => levelUpdate_noop lv dt es (Or.inr h), fun lv dt es h => ?_,
    fun lv seeds => ⟨rfl, rfl, rfl, rfl⟩⟩
  by_cases hw : lv.won = true
  · rw [levelUpdate_noop lv dt es (Or.inr (Or.inl hw))]
    exact h
  · by_cases hl : lv.lost = true
    · rw [levelUpdate_noop lv dt es (Or.inr (Or.inr hl))]
      exact h
    · by_cases hr : lv.running = true
      · rw [levelUpdate_run_eq lv dt es hr (by simpa using hw) (by simpa using hl)]
        split_ifs <;> simp_all
      · rw [levelUpdate_noop lv dt es (Or.inl (by simpa using hr))]
        exact h

/-- C5: while running and with no collision on the current tick,
`Level.update` sets the won flag exactly when the (updated) player's y
coordinate is at or above the finish line, whose y coordinate equals
`screenHeight − safeZoneHeight − laneCount·laneHeight`. -/
theorem c5_win_check (lv : Level) (dt : ℚ) (es : List PEvent)
    (hr : lv.running = true) (hw : lv.won = false) (hl : lv.lost = false)
    (hnc : anyCollision (Player.rect (Player.update dt es lv.player))
      (lv.lanes.map (Lane.update dt lv.screenW)) = false) :
    ((Level.update dt es lv).won = true ↔
      (Player.update dt es lv.player).y ≤ ((Level.finishLineY lv : ℤ) : ℚ)) ∧
    Level.finishLineY lv = lv.screenH - lv.safeZone - lv.laneCount * lv.laneHeight := by
  refine ⟨?_, rfl⟩
  rw [levelUpdate_run_eq lv dt es hr hw hl, if_neg (by simp [hnc])]
  by_cases hy : (Player.update dt es lv.player).y ≤ ((Level.finishLineY lv : ℤ) : ℚ)
  · rw [if_pos hy]
    simpa using hy
  · rw [if_neg hy]
    simpa [hw] using hy

/-- C4: while running, `Level.update` sets the lost flag on this tick if
and only if some obstacle's shrunken hitbox intersects the player's
collision rectangle (both taken after this tick's movement); moreover the
collision outcome does not depend on the iteration order over lanes or
over the obstacles within a lane. -/
theorem c4_collision_iff (lv : Level) (dt : ℚ) (es : List PEvent)
    (hr : lv.running = true) (hw : lv.won = false) (hl : lv.lost = false) :
    ((Level.update dt es lv).lost = true ↔
      ∃ ln ∈ lv.lanes.map (Lane.update dt lv.screenW),
        ∃ o ∈ ln.obstacles,
          collideB (Player.rect (Player.update dt es lv.player)) (obstacleHitbox o) = true) ∧
    (∀ (pr : IntRect) (l1 l2 : List Lane), l1.Perm l2 →
      anyCollision pr l1 = anyCollision pr l2) ∧
    (∀ (pr : IntRect) (ln : Lane) (obs2 : List Obstacle), ln.obstacles.Perm obs2 →
      laneHit pr ln = laneHit pr { ln with obstacles := obs2 }) := by
  refine ⟨?_, ?_, ?_⟩
  · rw [levelUpdate_run_eq lv dt es hr hw hl]
    by_cases hc : anyCollision (Player.rect (Player.update dt es lv.player))
        (lv.lanes.map (Lane.update dt lv.screenW)) = true
    · rw [if_pos hc]
      simp only [anyCollision, laneHit, List.any_eq_true] at hc
      simpa using hc
    · rw [if_neg hc]
      simp only [anyCollision, laneHit, List.any_eq_true] at hc
      split_ifs <;> simpa [hl] using hc
  · intro pr l1 l2 hp
    rw [Bool.eq_iff_iff]
    simp only [anyCollision, List.any_eq_true]
    exact ⟨fun ⟨x, hx, hfx⟩ => ⟨x, hp.mem_iff.mp hx, hfx⟩,
      fun ⟨x, hx, hfx⟩ => ⟨x, hp.mem_iff.mpr hx, hfx⟩⟩
  · intro pr ln obs2 hp
    rw [Bool.eq_iff_iff]
    simp only [laneHit, List.any_eq_true]
    exact ⟨fun ⟨x, hx, hfx⟩ => ⟨x, hp.mem_iff.mp hx, hfx⟩,
      fun ⟨x, hx, hfx⟩ => ⟨x, hp.mem_iff.mpr hx, hfx⟩⟩

/-- A concrete running session (no lanes, player far from the finish line),
used to instantiate claim theorems. -/
def sampleLevel : Level :=
  { cfg := { laneCount := 6, laneHeight := 70, finishPadding := 31, playerStep := 70,
             playerSpeed := 420, threeStar := 13, twoStar := 20, lanes := [] },
    screenW := 900, screenH := 700, laneHeight := 70, laneCount := 6, finishPadding := 31,
    safeZone := 70,
    player := { startX := 450, startY := 665, radius := 18, speed := 420, step := 70,
                boundsLeft := 0, boundsTop := 0, boundsW := 900, boundsH := 700,
                x := 450, y := 665, cooldown := 0, hasSprite := true },
    lanes := [], timeElapsed := 0, running := true, won := false, lost := false }

/-- C6 witness: a won copy of the sample session is left unchanged by
`Level.update`, a running one never ends with both flags set, and
`Level.start` clears both flags. -/
theorem c6_terminal_flags_witness :
    Level.update 1 [] { sampleLevel with won := true, running := false } =
      { sampleLevel with won := true, running := false } ∧
    ¬((Level.update 1 [] sampleLevel).won = true ∧ (Level.update 1 [] sampleLevel).lost = true) ∧
    (Level.start (fun _ => ([], 1)) sampleLevel).won = false :=
  ⟨c6_terminal_flags.1 _ 1 [] (Or.inl rfl),
   c6_terminal_flags.2.1 sampleLevel 1 [] (by simp [sampleLevel]),
   (c6_terminal_flags.2.2 sampleLevel (fun _ => ([], 1))).1⟩

/-- C5 witness: the win-check equivalence instantiated on the sample
session (which has no lanes, hence no collision). -/
theorem c5_win_check_witness :
    ((Level.update 1 [] sampleLevel).won = true ↔
      (Player.update 1 [] sampleLevel.player).y ≤ ((Level.finishLineY sampleLevel : ℤ) : ℚ)) ∧
    Level.finishLineY sampleLevel =
      sampleLevel.screenH - sampleLevel.safeZone - sampleLevel.laneCount * sampleLevel.laneHeight :=
  c5_win_check sampleLevel 1 [] rfl rfl rfl rfl

/-- C4 witness: the collision equivalence instantiated on the sample
session. -/
theorem c4_collision_iff_witness :
    ((Level.update 1 [] sampleLevel).lost = true ↔
      ∃ ln ∈ sampleLevel.lanes.map (Lane.update 1 sampleLevel.screenW),
        ∃ o ∈ ln.obstacles,
          collideB (Player.rect (Player.update 1 [] sampleLevel.player)) (obstacleHitbox o) = true) ∧
    (∀ (pr : IntRect) (l1 l2 : List Lane), l1.Perm l2 →
      anyCollision pr l1 = anyCollision pr l2) ∧
    (∀ (pr : IntRect) (ln : Lane) (obs2 : List Obstacle), ln.obstacles.Perm obs2 →
      laneHit pr ln = laneHit pr { ln with obstacles := obs2 }) :=
  c4_collision_iff sampleLevel 1 [] rfl rfl rfl

theorem sepOb_comm {g : ℤ} {a b : Obstacle} (h : sepOb g a b) : sepOb g b a := Or.symm h

theorem insertByX_perm (o : Obstacle) (l : List Obstacle) : (insertByX o l).Perm (o :: l) := by
  induction l with
  | nil => exact List.Perm.refl _
  | cons b l ih =>
    unfold insertByX
    split_ifs
    · exact List.Perm.refl _
    · exact (List.Perm.cons b ih).trans (List.Perm.swap o b l)

theorem sortByX_perm (l : List Obstacle) : (sortByX l).Perm l := by
  induction l with
  | nil => exact List.Perm.refl _
  | cons o l ih => exact (insertByX_perm o (sortByX l)).trans (List.Perm.cons o ih)

theorem sortByX_mem {o : Obstacle} {l : List Obstacle} : o ∈ sortByX l ↔ o ∈ l :=
  (sortByX_perm l).mem_iff

/-- The relation "a ends at least g before b starts". -/
def gapRel (g : ℤ) (a b : Obstacle) : Prop := a.rect.x + a.rect.w + g ≤ b.rect.x

theorem fixFwd_pres (g : ℤ) (P : Obstacle → Prop)
    (hP : ∀ (o : Obstacle) (z : ℤ), P o → P { o with rect := { o.rect with x := z } }) :
    ∀ (l : List Obstacle) (front : Obstacle), (∀ o ∈ l, P o) → ∀ o ∈ fixFwd g front l, P o := by
  intro l
  induction l with
  | nil => intro front h o ho; simp [fixFwd] at ho
  | cons b rest ih =>
    intro front h o ho
    simp only [fixFwd] at ho
    have hb : P b := h b (List.mem_cons_self b rest)
    have htail : ∀ o' ∈ rest, P o' := fun o' ho' => h o' (List.mem_cons_of_mem b ho')
    split_ifs at ho with hcond
    · rcases List.mem_cons.mp ho with rfl | ho
      · exact hP b _ hb
      · exact ih _ htail o ho
    · rcases List.mem_cons.mp ho with rfl | ho
      · exact hb
      · exact ih _ htail o ho

theorem fixBack_pres (g : ℤ) (P : Obstacle → Prop)
    (hP : ∀ (o : Obstacle) (z : ℤ), P o → P { o with rect := { o.rect with x := z } }) :
    ∀ (l : List Obstacle) (front : Obstacle), (∀ o ∈ l, P o) → ∀ o ∈ fixBack g front l, P o := by
  intro l
  induction l with
  | nil => intro front h o ho; simp [fixBack] at ho
  | cons b rest ih =>
    intro front h o ho
    simp only [fixBack] at ho
    have hb : P b := h b (List.mem_cons_self b rest)
    have htail : ∀ o' ∈ rest, P o' := fun o' ho' => h o' (List.mem_cons_of_mem b ho')
    split_ifs at ho with hcond
    · rcases List.mem_cons.mp ho with rfl | ho
      · exact hP b _ hb
      · exact ih _ htail o ho
    · rcases List.mem_cons.mp ho with rfl | ho
      · exact hb
      · exact ih _ htail o ho

theorem fixFwd_chain (g : ℤ) :
    ∀ (l : List Obstacle) (front : Obstacle),
      List.Chain (gapRel g) front (fixFwd g front l) := by
  intro l
  induction l with
  | nil => intro front; simp [fixFwd]
  | cons b rest ih =>
    intro front
    simp only [fixFwd]
    split_ifs with hlt
    · exact List.Chain.cons (by unfold gapRel; simp) (ih _)
    · exact List.Chain.cons (by unfold gapRel; omega) (ih _)

theorem fixBack_chain (g : ℤ) :
    ∀ (l : List Obstacle) (front : Obstacle),
      List.Chain (fun a b => gapRel g b a) front (fixBack g front l) := by
  intro l
  induction l with
  | nil => intro front; simp [fixBack]
  | cons b rest ih =>
    intro front
    simp only [fixBack]
    split_ifs with hlt
    · exact List.Chain.cons (by unfold gapRel; simp) (ih _)
    · exact List.Chain.cons (by unfold gapRel; omega) (ih _)

theorem chain_pairwise_gapRel (g : ℤ) :
    ∀ (l : List Obstacle) (a : Obstacle), 0 ≤ g → (∀ o ∈ l, 0 ≤ o.rect.w) →
      List.Chain (gapRel g) a l → List.Pairwise (gapRel g) (a :: l) := by
  intro l
  induction l with
  | nil => intro a _ _ _; exact List.pairwise_singleton _ _
  | cons b rest ih =>
    intro a hg hw hch
    rcases List.chain_cons.mp hch with ⟨hab, hch'⟩
    have hpair := ih b hg (fun o ho => hw o (List.mem_cons_of_mem _ ho)) hch'
    refine List.Pairwise.cons ?_ hpair
    intro c hc
    rcases List.mem_cons.mp hc with rfl | hc
    · exact hab
    · have hbc : gapRel g b c := (List.pairwise_cons.mp hpair).1 c hc
      have hbw : 0 ≤ b.rect.w := hw b (List.mem_cons_self _ _)
      unfold gapRel at *
      omega

theorem chain_pairwise_gapRel_flip (g : ℤ) :
    ∀ (l : List Obstacle) (a : Obstacle), 0 ≤ g → (∀ o ∈ l, 0 ≤ o.rect.w) →
      List.Chain (fun a b => gapRel g b a) a l →
      List.Pairwise (fun a b => gapRel g b a) (a :: l) := by
  intro l
  induction l with
  | nil => intro a _ _ _; exact List.pairwise_singleton _ _
  | cons b rest ih =>
    intro a hg hw hch
    rcases List.chain_cons.mp hch with ⟨hab, hch'⟩
    have hpair := ih b hg (fun o ho => hw o (List.mem_cons_of_mem _ ho)) hch'
    refine List.Pairwise.cons ?_ hpair
    intro c hc
    rcases List.mem_cons.mp hc with rfl | hc
    · exact hab
    · have hbc : gapRel g c b := (List.pairwise_cons.mp hpair).1 c hc
      have hbw : 0 ≤ b.rect.w := hw b (List.mem_cons_self _ _)
      unfold gapRel at *
      omega

theorem pairwise_of_short {R : Obstacle → Obstacle → Prop} :
    ∀ {l : List Obstacle}, ¬ 1 < l.length → l.Pairwise R := by
  intro l h
  match l with
  | [] => exact List.Pairwise.nil
  | [a] => exact List.pairwise_singleton R a
  | a :: b :: t => exact absurd (by simp [List.length_cons]) h

theorem gapFixList_pairwise (d g : ℤ) (hg : 0 ≤ g) (obs : List Obstacle)
    (hw : ∀ o ∈ obs, 0 ≤ o.rect.w) :
    (gapFixList d g obs).Pairwise (sepOb g) := by
  have hws : ∀ o ∈ sortByX obs, 0 ≤ o.rect.w := fun o ho => hw o (sortByX_mem.mp ho)
  have hP : ∀ (o : Obstacle) (z : ℤ), 0 ≤ o.rect.w →
      0 ≤ (Obstacle.rect { o with rect := { o.rect with x := z } }).w := fun o z h => h
  unfold gapFixList
  split_ifs with hd
  · cases hrev : (sortByX obs).reverse with
    | nil => exact List.Pairwise.nil
    | cons f rest =>
      have hwr : ∀ o ∈ f :: rest, 0 ≤ o.rect.w := by
        intro o ho
        exact hws o (List.mem_reverse.mp (hrev ▸ ho))
      have hwfix : ∀ o ∈ fixBack g f rest, 0 ≤ o.rect.w :=
        fixBack_pres g (fun o => 0 ≤ o.rect.w) hP rest f
          (fun o ho => hwr o (List.mem_cons_of_mem _ ho))
      have hpw := chain_pairwise_gapRel_flip g (fixBack g f rest) f hg hwfix (fixBack_chain g rest f)
      have hrevpw : List.Pairwise (gapRel g) (f :: fixBack g f rest).reverse :=
        List.pairwise_reverse.mpr hpw
      exact hrevpw.imp (fun h => Or.inl h)
  · cases hs : sortByX obs with
    | nil => exact List.Pairwise.nil
    | cons f rest =>
      have hwr : ∀ o ∈ f :: rest, 0 ≤ o.rect.w := by
        intro o ho
        exact hws o (hs ▸ ho)
      have hwfix : ∀ o ∈ fixFwd g f rest, 0 ≤ o.rect.w :=
        fixFwd_pres g (fun o => 0 ≤ o.rect.w) hP rest f
          (fun o ho => hwr o (List.mem_cons_of_mem _ ho))
      have hpw := chain_pairwise_gapRel g (fixFwd g f rest) f hg hwfix (fixFwd_chain g rest f)
      exact hpw.imp (fun h => Or.inl h)

theorem mkObstacle_rect (r : IntRect) (s : ℚ) (d : ℤ) : (mkObstacle r s d).rect = r := rfl

theorem foldlMin_le_init :
    ∀ (l : List Obstacle) (a : ℤ), l.foldl (fun m p => min m p.rect.x) a ≤ a := by
  intro l
  induction l with
  | nil => intro a; exact le_refl a
  | cons p l ih => intro a; exact le_trans (ih (min a p.rect.x)) (min_le_left _ _)

theorem foldlMin_le_mem :
    ∀ (l : List Obstacle) (a : ℤ) (p : Obstacle), p ∈ l →
      l.foldl (fun m q => min m q.rect.x) a ≤ p.rect.x := by
  intro l
  induction l with
  | nil => intro a p hp; simp at hp
  | cons q l ih =>
    intro a p hp
    rcases List.mem_cons.mp hp with rfl | hp
    · exact le_trans (foldlMin_le_init l (min a p.rect.x)) (min_le_right _ _)
    · exact ih (min a q.rect.x) p hp

theorem foldlMax_init_le :
    ∀ (l : List Obstacle) (a : ℤ), a ≤ l.foldl (fun m p => max m (p.rect.x + p.rect.w)) a := by
  intro l
  induction l with
  | nil => intro a; exact le_refl a
  | cons p l ih => intro a; exact le_trans (le_max_left _ _) (ih (max a (p.rect.x + p.rect.w)))

theorem foldlMax_mem_le :
    ∀ (l : List Obstacle) (a : ℤ) (p : Obstacle), p ∈ l →
      p.rect.x + p.rect.w ≤ l.foldl (fun m q => max m (q.rect.x + q.rect.w)) a := by
  intro l
  induction l with
  | nil => intro a p hp; simp at hp
  | cons q l ih =>
    intro a p hp
    rcases List.mem_cons.mp hp with rfl | hp
    · exact le_trans (le_max_right _ _) (foldlMax_init_le l (max a (p.rect.x + p.rect.w)))
    · exact ih (max a (q.rect.x + q.rect.w)) p hp

theorem minLeft_le {obs : List Obstacle} {m : ℤ} (hm : minLeft obs = some m) :
    ∀ o ∈ obs, m ≤ o.rect.x := by
  cases obs with
  | nil => simp [minLeft] at hm
  | cons o₀ os =>
    simp only [minLeft, Option.some.injEq] at hm
    subst hm
    intro o ho
    rcases List.mem_cons.mp ho with rfl | ho
    · exact foldlMin_le_init os o.rect.x
    · exact foldlMin_le_mem os o₀.rect.x o ho

theorem maxRight_ge {obs : List Obstacle} {m : ℤ} (hm : maxRight obs = some m) :
    ∀ o ∈ obs, o.rect.x + o.rect.w ≤ m := by
  cases obs with
  | nil => simp [maxRight] at hm
  | cons o₀ os =>
    simp only [maxRight, Option.some.injEq] at hm
    subst hm
    intro o ho
    rcases List.mem_cons.mp ho with rfl | ho
    · exact foldlMax_init_le os (o.rect.x + o.rect.w)
    · exact foldlMax_mem_le os (o₀.rect.x + o₀.rect.w) o ho

theorem spawnOb_w (W : ℤ) (ln : Lane) : (Lane.spawnOb W ln).rect.w = ln.obstacleWidth := rfl

theorem spawnOb_h (W : ℤ) (ln : Lane) : (Lane.spawnOb W ln).rect.h = ln.obstacleHeight := rfl

/-- The obstacle created by `_spawn` keeps at least `min_gap` from every
obstacle already in the lane. -/
theorem spawnOb_sep (W : ℤ) (ln : Lane) :
    ∀ o ∈ ln.obstacles, sepOb ln.minGap (Lane.spawnOb W ln) o := by
  intro o ho
  unfold Lane.spawnOb sepOb
  split_ifs with hd
  · cases hml : minLeft ln.obstacles with
    | none =>
      cases obs : ln.obstacles with
      | nil => rw [obs] at ho; simp at ho
      | cons a os => rw [obs] at hml; simp [minLeft] at hml
    | some nl =>
      left
      have h1 : min (-ln.obstacleWidth - 20) (nl - ln.minGap - ln.obstacleWidth) ≤
          nl - ln.minGap - ln.obstacleWidth := min_le_right _ _
      have h2 : nl ≤ o.rect.x := minLeft_le hml o ho
      simp only [mkObstacle_rect]
      omega
  · cases hmr : maxRight ln.obstacles with
    | none =>
      cases obs : ln.obstacles with
      | nil => rw [obs] at ho; simp at ho
      | cons a os => rw [obs] at hmr; simp [maxRight] at hmr
    | some nr =>
      right
      have h1 : nr + ln.minGap ≤ max (W + 20) (nr + ln.minGap) := le_max_right _ _
      have h2 : o.rect.x + o.rect.w ≤ nr := maxRight_ge hmr o ho
      simp only [mkObstacle_rect]
      omega

theorem seedGreedy_pairwise (ln : Lane) (k : ℕ) :
    ∀ (cs : List ℤ) (acc : List Obstacle), acc.Pairwise (sepOb ln.minGap) →
      (Lane.seedGreedy ln k cs acc).Pairwise (sepOb ln.minGap) := by
  intro cs
  induction cs with
  | nil => intro acc h; simpa [Lane.seedGreedy] using h
  | cons x xs ih =>
    intro acc h
    simp only [Lane.seedGreedy]
    split_ifs with h1 h2
    · exact h
    · refine ih _ (List.pairwise_append.mpr ⟨h, List.pairwise_singleton _ _, ?_⟩)
      intro a ha b hb
      rw [List.mem_singleton] at hb
      subst hb
      have hcond := List.all_eq_true.mp h2 a ha
      rcases Bool.or_eq_true_iff.mp hcond with hc | hc
      · exact Or.inr (of_decide_eq_true hc)
      · exact Or.inl (of_decide_eq_true hc)
    · exact ih acc h

/-- After `Lane.reset` the obstacles are pairwise separated by `min_gap`. -/
theorem laneReset_sep (ln : Lane) (cands : List ℤ) (k : ℕ) :
    laneSeparated (Lane.reset cands k ln) := by
  unfold laneSeparated Lane.reset
  exact ((sortByX_perm _).pairwise_iff (fun h => sepOb_comm h)).mpr
    (seedGreedy_pairwise ln k (sortInt cands) [] List.Pairwise.nil)

theorem laneCulled_sep (dt : ℚ) (W : ℤ) (ln : Lane)
    (hg : 0 ≤ ln.minGap) (hw : ∀ o ∈ ln.obstacles, 0 ≤ o.rect.w) :
    (laneCulled dt W ln).Pairwise (sepOb ln.minGap) := by
  have hwm : ∀ o ∈ laneMoved dt ln, 0 ≤ o.rect.w := by
    intro o ho
    rcases List.mem_map.mp ho with ⟨o₀, ho₀, rfl⟩
    exact hw o₀ ho₀
  have hfix : (laneFixed dt ln).Pairwise (sepOb ln.minGap) := by
    unfold laneFixed
    split_ifs with hlen
    · exact gapFixList_pairwise ln.direction ln.minGap hg (laneMoved dt ln) hwm
    · exact pairwise_of_short hlen
  unfold laneCulled
  split_ifs with hd
  · exact hfix.sublist (List.filter_sublist _)
  · exact hfix.sublist (List.filter_sublist _)

/-- After any `Lane.update` the obstacles are pairwise separated by
`min_gap` (the per-tick correction pass re-establishes the invariant, the
culling only removes obstacles, and the spawn placement respects it). -/
theorem laneUpdate_sep (dt : ℚ) (W : ℤ) (ln : Lane)
    (hg : 0 ≤ ln.minGap) (hw : ∀ o ∈ ln.obstacles, 0 ≤ o.rect.w) :
    laneSeparated (Lane.update dt W ln) := by
  have hculled := laneCulled_sep dt W ln hg hw
  unfold laneSeparated
  simp only [Lane.update]
  split_ifs with h1 h2
  · refine List.pairwise_append.mpr ⟨hculled, List.pairwise_singleton _ _, ?_⟩
    intro a ha b hb
    rw [List.mem_singleton] at hb
    subst hb
    exact sepOb_comm (spawnOb_sep W { ln with obstacles := laneCulled dt W ln } a ha)
  · exact hculled
  · exact hculled

theorem gapFixList_dims (P : ℤ → ℤ → Prop) (d g : ℤ) (obs : List Obstacle)
    (h : ∀ o ∈ obs, P o.rect.w o.rect.h) : ∀ o ∈ gapFixList d g obs, P o.rect.w o.rect.h := by
  have hP : ∀ (o : Obstacle) (z : ℤ), P o.rect.w o.rect.h →
      P (Obstacle.rect { o with rect := { o.rect with x := z } }).w
        (Obstacle.rect { o with rect := { o.rect with x := z } }).h := fun o z hh => hh
  have hs : ∀ o ∈ sortByX obs, P o.rect.w o.rect.h := fun o ho => h o (sortByX_mem.mp ho)
  unfold gapFixList
  split_ifs with hd
  · cases hrev : (sortByX obs).reverse with
    | nil => intro o ho; simp at ho
    | cons f rest =>
      intro o ho
      rw [List.mem_reverse] at ho
      have hmem : ∀ o' ∈ f :: rest, P o'.rect.w o'.rect.h := fun o' ho' =>
        hs o' (List.mem_reverse.mp (hrev ▸ ho'))
      rcases List.mem_cons.mp ho with rfl | ho
      · exact hmem o (List.mem_cons_self _ _)
      · exact fixBack_pres g (fun o => P o.rect.w o.rect.h) hP rest f
          (fun o' ho' => hmem o' (List.mem_cons_of_mem _ ho')) o ho
  · cases hsx : sortByX obs with
    | nil => intro o ho; simp at ho
    | cons f rest =>
      intro o ho
      have hmem : ∀ o' ∈ f :: rest, P o'.rect.w o'.rect.h := fun o' ho' => hs o' (hsx ▸ ho')
      rcases List.mem_cons.mp ho with rfl | ho
      · exact hmem o (List.mem_cons_self _ _)
      · exact fixFwd_pres g (fun o => P o.rect.w o.rect.h) hP rest f
          (fun o' ho' => hmem o' (List.mem_cons_of_mem _ ho')) o ho

theorem laneCulled_dims (P : ℤ → ℤ → Prop) (dt : ℚ) (W : ℤ) (ln : Lane)
    (h : ∀ o ∈ ln.obstacles, P o.rect.w o.rect.h) :
    ∀ o ∈ laneCulled dt W ln, P o.rect.w o.rect.h := by
  have hm : ∀ o ∈ laneMoved dt ln, P o.rect.w o.rect.h := by
    intro o ho
    rcases List.mem_map.mp ho with ⟨o₀, ho₀, rfl⟩
    exact h o₀ ho₀
  have hf : ∀ o ∈ laneFixed dt ln, P o.rect.w o.rect.h := by
    unfold laneFixed
    split_ifs with hlen
    · exact gapFixList_dims P _ _ _ hm
    · exact hm
  unfold laneCulled
  split_ifs with hd <;> exact fun o ho => hf o (List.mem_of_mem_filter ho)

theorem laneUpdate_dims (P : ℤ → ℤ → Prop) (dt : ℚ) (W : ℤ) (ln : Lane)
    (h : ∀ o ∈ ln.obstacles, P o.rect.w o.rect.h)
    (hnew : P ln.obstacleWidth ln.obstacleHeight) :
    ∀ o ∈ (Lane.update dt W ln).obstacles, P o.rect.w o.rect.h := by
  have hc := laneCulled_dims P dt W ln h
  simp only [Lane.update]
  split_ifs with h1 h2
  · intro o ho
    rcases List.mem_append.mp ho with ho | ho
    · exact hc o ho
    · rw [List.mem_singleton] at ho
      subst ho
      exact hnew
  · exact hc
  · exact hc

theorem laneUpdate_fields (dt : ℚ) (W : ℤ) (ln : Lane) :
    (Lane.update dt W ln).minGap = ln.minGap ∧
    (Lane.update dt W ln).obstacleWidth = ln.obstacleWidth ∧
    (Lane.update dt W ln).obstacleHeight = ln.obstacleHeight ∧
    (Lane.update dt W ln).direction = ln.direction := by
  simp only [Lane.update]
  split_ifs <;> exact ⟨rfl, rfl, rfl, rfl⟩

theorem seedGreedy_dims (P : ℤ → ℤ → Prop) (ln : Lane) (k : ℕ)
    (hnew : P ln.obstacleWidth ln.obstacleHeight) :
    ∀ (cs : List ℤ) (acc : List Obstacle), (∀ o ∈ acc, P o.rect.w o.rect.h) →
      ∀ o ∈ Lane.seedGreedy ln k cs acc, P o.rect.w o.rect.h := by
  intro cs
  induction cs with
  | nil => intro acc h; simpa [Lane.seedGreedy] using h
  | cons x xs ih =>
    intro acc h
    simp only [Lane.seedGreedy]
    split_ifs with h1 h2
    · exact h
    · refine ih _ ?_
      intro o ho
      rcases List.mem_append.mp ho with ho | ho
      · exact h o ho
      · rw [List.mem_singleton] at ho
        subst ho
        exact hnew
    · exact ih acc h

theorem laneReset_dims (P : ℤ → ℤ → Prop) (ln : Lane) (cands : List ℤ) (k : ℕ)
    (hnew : P ln.obstacleWidth ln.obstacleHeight) :
    ∀ o ∈ (Lane.reset cands k ln).obstacles, P o.rect.w o.rect.h := by
  intro o ho
  exact seedGreedy_dims P ln k hnew (sortInt cands) [] (by simp) o (sortByX_mem.mp ho)

/-- Fold a list of `(dt, screen_width)` frames through `Lane.update`. -/
def runLaneCalls (calls : List (ℚ × ℤ)) (ln : Lane) : Lane :=
  calls.foldl (fun l c => Lane.update c.1 c.2 l) ln

theorem runLaneCalls_sep :
    ∀ (calls : List (ℚ × ℤ)) (st : Lane), 0 ≤ st.minGap → 0 ≤ st.obstacleWidth →
      (∀ o ∈ st.obstacles, 0 ≤ o.rect.w) → laneSeparated st →
      laneSeparated (runLaneCalls calls st) := by
  intro calls
  induction calls with
  | nil => intro st _ _ _ h; exact h
  | cons c cs ih =>
    intro st hg hwidth hobs _
    have hfields := laneUpdate_fields c.1 c.2 st
    exact ih (Lane.update c.1 c.2 st) (hfields.1 ▸ hg) (hfields.2.1 ▸ hwidth)
      (laneUpdate_dims (fun w _ => 0 ≤ w) c.1 c.2 st hobs hwidth)
      (laneUpdate_sep c.1 c.2 st hg hobs)

/-- C1: after `Lane.reset`, and after every `Lane.update` (with the lane's
nonnegative `min_gap` and obstacle widths), any two distinct obstacles in
the lane are separated along the x axis by at least `min_gap`; in
particular the obstacle created by the spawn step is at least `min_gap`
away from every existing obstacle at the moment it is created, and the
invariant holds after `reset()` followed by any finite sequence of
`update(dt, screen_width)` calls. -/
theorem c1_lane_min_gap :
    (∀ (ln : Lane) (cands : List ℤ) (k : ℕ), laneSeparated (Lane.reset cands k ln)) ∧
    (∀ (ln : Lane) (dt : ℚ) (W : ℤ), 0 ≤ dt → 0 ≤ ln.minGap →
      (∀ o ∈ ln.obstacles, 0 ≤ o.rect.w) → laneSeparated (Lane.update dt W ln)) ∧
    (∀ (ln : Lane) (W : ℤ), ∀ o ∈ ln.obstacles, sepOb ln.minGap (Lane.spawnOb W ln) o) ∧
    (∀ (ln : Lane) (cands : List ℤ) (k : ℕ) (calls : List (ℚ × ℤ)),
      0 ≤ ln.minGap → 0 ≤ ln.obstacleWidth →
      laneSeparated (runLaneCalls calls (Lane.reset cands k ln))) := by
  refine ⟨fun ln cands k => laneReset_sep ln cands k,
    fun ln dt W _ hg hw => laneUpdate_sep dt W ln hg hw,
    fun ln W => spawnOb_sep W ln,
    fun ln cands k calls hg hwidth => ?_⟩
  exact runLaneCalls_sep calls (Lane.reset cands k ln) hg hwidth
    (laneReset_dims (fun w _ => 0 ≤ w) ln cands k hwidth)
    (laneReset_sep ln cands k)

/-- A concrete lane used to instantiate the lane claims. -/
def sampleLane : Lane :=
  { rect := { x := 0, y := 0, w := 900, h := 70 }
    direction := 1
    speed := 170
    spawnEvery := 1
    obstacleWidth := 119
    obstacleHeight := 80
    minGap := 95
    obstacles := [mkObstacle { x := 100, y := 0, w := 119, h := 80 } 170 1,
                  mkObstacle { x := 400, y := 0, w := 119, h := 80 } 170 1]
    spawnTimer := 0 }

/-- C1 witness: the separation facts instantiated on a concrete lane, a
concrete random draw and one concrete frame. -/
theorem c1_lane_min_gap_witness :
    laneSeparated (Lane.reset [0, 200, 400] 3 sampleLane) ∧
    laneSeparated (Lane.update (1/60) 900 sampleLane) ∧
    (∀ o ∈ sampleLane.obstacles, sepOb sampleLane.minGap (Lane.spawnOb 900 sampleLane) o) ∧
    laneSeparated (runLaneCalls [(1/60, 900)] (Lane.reset [0, 300] 2 sampleLane)) :=
  ⟨c1_lane_min_gap.1 sampleLane [0, 200, 400] 3,
   c1_lane_min_gap.2.1 sampleLane (1/60) 900 (by norm_num) (by norm_num [sampleLane])
     (by simp [sampleLane, mkObstacle]),
   c1_lane_min_gap.2.2.1 sampleLane 900,
   c1_lane_min_gap.2.2.2 sampleLane [0, 300] 2 [(1/60, 900)] (by norm_num [sampleLane])
     (by norm_num [sampleLane])⟩

/-- C10: the per-lane obstacle width computed by the level generator is
never used when constructing a level: every `Lane` built by
`Level.__init__` gets `car_height = max(26, int(lane_height·1.15))` and
`car_width = max(90, int(car_height·1.49))`, derived from `lane_height`
alone (changing the config's per-lane width field does not change the
constructed lanes), and every obstacle rectangle a `Lane` creates — at
reset, at spawn, and through updates — has exactly those dimensions. -/
theorem c10_obstacle_dims :
    (∀ (cfg : LevelCfg) (W H : ℤ) (hs : Bool) (i : ℕ)
        (hi : i < (mkLevel cfg W H hs).lanes.length),
      ((mkLevel cfg W H hs).lanes.get ⟨i, hi⟩).obstacleHeight =
        max 26 (pyInt ((cfg.laneHeight : ℚ) * (115/100))) ∧
      ((mkLevel cfg W H hs).lanes.get ⟨i, hi⟩).obstacleWidth =
        max 90 (pyInt ((max 26 (pyInt ((cfg.laneHeight : ℚ) * (115/100))) : ℚ) * (149/100)))) ∧
    (∀ (cfg : LevelCfg) (W H : ℤ) (hs : Bool) (f : ℤ → ℤ),
      (mkLevel { cfg with lanes := cfg.lanes.map (fun lc => { lc with width := f lc.width }) }
          W H hs).lanes = (mkLevel cfg W H hs).lanes) ∧
    (∀ (ln : Lane) (cands : List ℤ) (k : ℕ), ∀ o ∈ (Lane.reset cands k ln).obstacles,
      o.rect.w = ln.obstacleWidth ∧ o.rect.h = ln.obstacleHeight) ∧
    (∀ (W : ℤ) (ln : Lane),
      (Lane.spawnOb W ln).rect.w = ln.obstacleWidth ∧
      (Lane.spawnOb W ln).rect.h = ln.obstacleHeight) ∧
    (∀ (ln : Lane) (dt : ℚ) (W : ℤ),
      (∀ o ∈ ln.obstacles, o.rect.w = ln.obstacleWidth ∧ o.rect.h = ln.obstacleHeight) →
      ∀ o ∈ (Lane.update dt W ln).obstacles,
        o.rect.w = ln.obstacleWidth ∧ o.rect.h = ln.obstacleHeight) := by
  refine ⟨?_, ?_, ?_, fun W ln => ⟨rfl, rfl⟩, ?_⟩
  · intro cfg W H hs i hi
    simp only [mkLevel, List.get_eq_getElem, List.getElem_map, List.getElem_enum, mkLane]
    refine ⟨trivial, ?_⟩
    push_cast
    rfl
  · intro cfg W H hs f
    simp only [mkLevel]
    rw [List.enum_map, List.map_map]
    rfl
  · intro ln cands k
    exact laneReset_dims (fun w h => w = ln.obstacleWidth ∧ h = ln.obstacleHeight)
      ln cands k ⟨rfl, rfl⟩
  · intro ln dt W h
    exact laneUpdate_dims (fun w h => w = ln.obstacleWidth ∧ h = ln.obstacleHeight)
      dt W ln h ⟨rfl, rfl⟩

/-- C10 witness: instantiated on the level-1 configuration (lane 0) and the
concrete sample lane. -/
theorem c10_obstacle_dims_witness :
    (∀ hi : 0 < (mkLevel (makeLevel 1) 900 700 true).lanes.length,
      ((mkLevel (makeLevel 1) 900 700 true).lanes.get ⟨0, hi⟩).obstacleHeight =
        max 26 (pyInt (((makeLevel 1).laneHeight : ℚ) * (115/100)))) ∧
    (∀ o ∈ (Lane.reset [0, 300] 2 sampleLane).obstacles,
      o.rect.w = sampleLane.obstacleWidth ∧ o.rect.h = sampleLane.obstacleHeight) ∧
    (∀ o ∈ (Lane.update (1/60) 900 sampleLane).obstacles,
      o.rect.w = sampleLane.obstacleWidth ∧ o.rect.h = sampleLane.obstacleHeight) :=
  ⟨fun hi => (c10_obstacle_dims.1 (makeLevel 1) 900 700 true 0 hi).1,
   c10_obstacle_dims.2.2.1 sampleLane [0, 300] 2,
   c10_obstacle_dims.2.2.2.2 sampleLane (1/60) 900 (by simp [sampleLane, mkObstacle])⟩

theorem procEvents_otherKey (es : List PEvent) (p : Player) :
    Player.procEvents (PEvent.keyDown PKey.other :: es) p = Player.procEvents es p := by
  simp only [Player.procEvents, dirDelta]
  split_ifs with h1 h2
  · exact absurd h2 (by simp)
  · rfl
  · rfl

theorem procEvents_nonDir :
    ∀ (es : List PEvent) (p : Player), (∀ e ∈ es, e.isDirDown = false) →
      Player.procEvents es p = p := by
  intro es
  induction es with
  | nil => intro p _; rfl
  | cons e es ih =>
    intro p h
    have he := h e (List.mem_cons_self _ _)
    have htail : ∀ e' ∈ es, e'.isDirDown = false := fun e' he' => h e' (List.mem_cons_of_mem _ he')
    cases e with
    | otherEvent => exact ih p htail
    | keyDown k =>
      cases k with
      | other =>
        rw [procEvents_otherKey]
        exact ih p htail
      | up => simp [PEvent.isDirDown] at he
      | down => simp [PEvent.isDirDown] at he
      | left => simp [PEvent.isDirDown] at he
      | right => simp [PEvent.isDirDown] at he

theorem procEvents_blocked :
    ∀ (es : List PEvent) (p : Player), 0 < p.cooldown → Player.procEvents es p = p := by
  intro es
  induction es with
  | nil => intro p _; rfl
  | cons e es ih =>
    intro p h
    cases e with
    | otherEvent => exact ih p h
    | keyDown k =>
      simp only [Player.procEvents]
      rw [if_neg (not_le.mpr h)]
      exact ih p h

theorem procEvents_accept :
    ∀ (es₁ es₂ : List PEvent) (k : PKey) (p : Player),
      p.cooldown ≤ 0 → (∀ e ∈ es₁, e.isDirDown = false) →
      (PEvent.keyDown k).isDirDown = true → p.step ≠ 0 →
      Player.procEvents (es₁ ++ PEvent.keyDown k :: es₂) p =
        { p with x := p.x + ((dirDelta k p.step).1 : ℚ),
                 y := p.y + ((dirDelta k p.step).2 : ℚ),
                 cooldown := playerCooldownTime } := by
  intro es₁
  induction es₁ with
  | nil =>
    intro es₂ k p hcd h1 hk hstep
    simp only [List.nil_append, Player.procEvents]
    rw [if_pos hcd]
    have hd : (dirDelta k p.step).1 ≠ 0 ∨ (dirDelta k p.step).2 ≠ 0 := by
      cases k with
      | up => right; simp [dirDelta, hstep]
      | down => right; simp [dirDelta, hstep]
      | left => left; simp [dirDelta, hstep]
      | right => left; simp [dirDelta, hstep]
      | other => simp [PEvent.isDirDown] at hk
    rw [if_pos hd]
    exact procEvents_blocked es₂ _ (by norm_num [playerCooldownTime])
  | cons e es₁ ih =>
    intro es₂ k p hcd h1 hk hstep
    have he := h1 e (List.mem_cons_self _ _)
    have htail : ∀ e' ∈ es₁, e'.isDirDown = false :=
      fun e' he' => h1 e' (List.mem_cons_of_mem e he')
    cases e with
    | otherEvent =>
      simp only [List.cons_append, Player.procEvents]
      exact ih es₂ k p hcd htail hk hstep
    | keyDown kk =>
      cases kk with
      | other =>
        rw [List.cons_append, procEvents_otherKey]
        exact ih es₂ k p hcd htail hk hstep
      | up => simp [PEvent.isDirDown] at he
      | down => simp [PEvent.isDirDown] at he
      | left => simp [PEvent.isDirDown] at he
      | right => simp [PEvent.isDirDown] at he

theorem playerUpdate_accept (dt : ℚ) (es₁ es₂ : List PEvent) (k : PKey) (p : Player)
    (hcd : (Player.decCd dt p).cooldown ≤ 0) (h1 : ∀ e ∈ es₁, e.isDirDown = false)
    (hk : (PEvent.keyDown k).isDirDown = true) (hstep : p.step ≠ 0) :
    Player.update dt (es₁ ++ PEvent.keyDown k :: es₂) p =
      Player.clampPos { p with x := p.x + ((dirDelta k p.step).1 : ℚ),
                               y := p.y + ((dirDelta k p.step).2 : ℚ),
                               cooldown := playerCooldownTime } := by
  unfold Player.update
  rw [procEvents_accept es₁ es₂ k (Player.decCd dt p) hcd h1 hk hstep]
  rfl

theorem playerUpdate_blocked (dt : ℚ) (es : List PEvent) (p : Player)
    (h : 0 < (Player.decCd dt p).cooldown) :
    Player.update dt es p = Player.clampPos (Player.decCd dt p) := by
  unfold Player.update
  rw [procEvents_blocked es _ h]

theorem clampPos_cooldown (p : Player) (c : ℚ) :
    Player.clampPos { p with cooldown := c } = { Player.clampPos p with cooldown := c } := rfl

theorem inBoundsP_cooldown {p : Player} (c : ℚ) (h : inBoundsP p) :
    inBoundsP { p with cooldown := c } := by
  unfold inBoundsP at *
  rw [clampPos_cooldown, h]

theorem max0_cascade (c d₁ d₂ : ℚ) (h : 0 ≤ d₂) :
    max 0 (max 0 (c - d₁) - d₂) = max 0 (c - (d₁ + d₂)) := by
  simp only [max_def]
  split_ifs <;> linarith

theorem sum_dts_nonneg (calls : List (ℚ × List PEvent)) (h : ∀ c ∈ calls, 0 ≤ c.1) :
    0 ≤ (calls.map Prod.fst).sum := by
  induction calls with
  | nil => simp
  | cons c cs ih =>
    simp only [List.map_cons, List.sum_cons]
    have h1 := h c (List.mem_cons_self _ _)
    have h2 := ih (fun c' hc' => h c' (List.mem_cons_of_mem _ hc'))
    linarith

theorem runCalls_blocked :
    ∀ (calls : List (ℚ × List PEvent)) (p : Player), inBoundsP p →
      (∀ c ∈ calls, 0 ≤ c.1) → (calls.map Prod.fst).sum < p.cooldown →
      runPlayerCalls calls p = { p with cooldown := p.cooldown - (calls.map Prod.fst).sum } := by
  intro calls
  induction calls with
  | nil =>
    intro p _ _ _
    have harith : p.cooldown - (([] : List (ℚ × List PEvent)).map Prod.fst).sum = p.cooldown := by
      simp
    show p = _
    rw [harith]
  | cons c cs ih =>
    intro p hin hdts hsum
    have hd0 : 0 ≤ c.1 := hdts c (List.mem_cons_self _ _)
    have hrest : ∀ c' ∈ cs, 0 ≤ c'.1 := fun c' hc' => hdts c' (List.mem_cons_of_mem _ hc')
    have hsums : 0 ≤ (cs.map Prod.fst).sum := sum_dts_nonneg cs hrest
    have hsum' : (cs.map Prod.fst).sum < p.cooldown - c.1 := by
      simp only [List.map_cons, List.sum_cons] at hsum
      linarith
    have hdc : Player.decCd c.1 p = { p with cooldown := p.cooldown - c.1 } := by
      unfold Player.decCd
      rw [max_eq_right (by linarith : (0 : ℚ) ≤ p.cooldown - c.1)]
    have hpos : 0 < (Player.decCd c.1 p).cooldown := by
      rw [hdc]
      show 0 < p.cooldown - c.1
      linarith
    have hclamp : Player.clampPos { p with cooldown := p.cooldown - c.1 } =
        { p with cooldown := p.cooldown - c.1 } := inBoundsP_cooldown _ hin
    show runPlayerCalls cs (Player.update c.1 c.2 p) = _
    rw [playerUpdate_blocked c.1 c.2 p hpos, hdc, hclamp,
      ih _ (inBoundsP_cooldown _ hin) hrest hsum']
    have harith : p.cooldown - c.1 - (cs.map Prod.fst).sum =
        p.cooldown - ((c :: cs).map Prod.fst).sum := by
      simp only [List.map_cons, List.sum_cons]
      ring
    rw [harith]

theorem runCalls_nonDir :
    ∀ (calls : List (ℚ × List PEvent)) (p : Player), inBoundsP p → 0 ≤ p.cooldown →
      (∀ c ∈ calls, 0 ≤ c.1 ∧ ∀ e ∈ c.2, e.isDirDown = false) →
      runPlayerCalls calls p =
        { p with cooldown := max 0 (p.cooldown - (calls.map Prod.fst).sum) } := by
  intro calls
  induction calls with
  | nil =>
    intro p _ h0 _
    have harith : max 0 (p.cooldown - (([] : List (ℚ × List PEvent)).map Prod.fst).sum) =
        p.cooldown := by
      simp [max_eq_right h0]
    show p = _
    rw [harith]
  | cons c cs ih =>
    intro p hin h0 hcalls
    have hc := hcalls c (List.mem_cons_self _ _)
    have hrest := fun c' hc' => hcalls c' (List.mem_cons_of_mem _ hc')
    have hsums : 0 ≤ (cs.map Prod.fst).sum := sum_dts_nonneg cs (fun c' hc' => (hrest c' hc').1)
    show runPlayerCalls cs (Player.update c.1 c.2 p) = _
    have hupd : Player.update c.1 c.2 p = Player.decCd c.1 p := by
      unfold Player.update
      rw [procEvents_nonDir c.2 _ hc.2]
      exact inBoundsP_cooldown _ hin
    rw [hupd, ih (Player.decCd c.1 p) (inBoundsP_cooldown _ hin) (le_max_left _ _) hrest]
    show { p with cooldown := max 0 (max 0 (p.cooldown - c.1) - (cs.map Prod.fst).sum) } = _
    rw [max0_cascade p.cooldown c.1 ((cs.map Prod.fst).sum) hsums]
    have harith : p.cooldown - (c.1 + (cs.map Prod.fst).sum) =
        p.cooldown - ((c :: cs).map Prod.fst).sum := by
      simp only [List.map_cons, List.sum_cons]
    rw [harith]

theorem runCalls_moveAgain (p : Player) (calls : List (ℚ × List PEvent)) (dtF : ℚ)
    (es₁ es₂ : List PEvent) (k : PKey)
    (hin : inBoundsP p) (h0 : 0 ≤ p.cooldown)
    (hcalls : ∀ c ∈ calls, 0 ≤ c.1 ∧ ∀ e ∈ c.2, e.isDirDown = false)
    (hdtF : 0 ≤ dtF) (hsum : p.cooldown ≤ (calls.map Prod.fst).sum + dtF)
    (h1 : ∀ e ∈ es₁, e.isDirDown = false) (hk : (PEvent.keyDown k).isDirDown = true)
    (hstep : p.step ≠ 0) :
    runPlayerCalls (calls ++ [(dtF, es₁ ++ PEvent.keyDown k :: es₂)]) p =
      Player.clampPos { p with x := p.x + ((dirDelta k p.step).1 : ℚ),
                               y := p.y + ((dirDelta k p.step).2 : ℚ),
                               cooldown := playerCooldownTime } := by
  have hfold : runPlayerCalls (calls ++ [(dtF, es₁ ++ PEvent.keyDown k :: es₂)]) p =
      Player.update dtF (es₁ ++ PEvent.keyDown k :: es₂) (runPlayerCalls calls p) := by
    unfold runPlayerCalls
    rw [List.foldl_append]
    rfl
  rw [hfold, runCalls_nonDir calls p hin h0 hcalls]
  have hcd : (Player.decCd dtF
      { p with cooldown := max 0 (p.cooldown - (calls.map Prod.fst).sum) }).cooldown ≤ 0 := by
    show max 0 (max 0 (p.cooldown - (calls.map Prod.fst).sum) - dtF) ≤ 0
    rw [max0_cascade _ _ _ hdtF]
    have hle : p.cooldown - ((calls.map Prod.fst).sum + dtF) ≤ 0 := by linarith
    simp [max_eq_left hle]
  rw [playerUpdate_accept dtF es₁ es₂ k _ hcd h1 hk hstep]

/-- C8: a directional key-down processed while the move cooldown is ≤ 0
moves the player by exactly `step` pixels along the single matching axis
and re-arms the cooldown to 0.09 s; any further directional key-down in the
same call (the remaining events are ignored once the cooldown is re-armed),
or in later calls before 0.09 s of cumulative `dt` have elapsed, produces
no movement; once at least 0.09 s of cumulative `dt` have elapsed the next
directional key-down moves the player again; and after event processing
the position is clamped to the playfield bounds. -/
theorem c8_step_movement_cooldown :
    (∀ (p : Player) (dt : ℚ) (es₁ es₂ : List PEvent) (k : PKey),
      (Player.decCd dt p).cooldown ≤ 0 → (∀ e ∈ es₁, e.isDirDown = false) →
      (PEvent.keyDown k).isDirDown = true → p.step ≠ 0 →
      Player.update dt (es₁ ++ PEvent.keyDown k :: es₂) p =
        Player.clampPos { p with x := p.x + ((dirDelta k p.step).1 : ℚ),
                                 y := p.y + ((dirDelta k p.step).2 : ℚ),
                                 cooldown := playerCooldownTime } ∧
      ((dirDelta k p.step).1 = 0 ∨ (dirDelta k p.step).2 = 0)) ∧
    (∀ (p : Player) (dt : ℚ) (es : List PEvent), 0 < (Player.decCd dt p).cooldown →
      Player.update dt es p = Player.clampPos (Player.decCd dt p)) ∧
    (∀ (p : Player) (calls : List (ℚ × List PEvent)), inBoundsP p →
      (∀ c ∈ calls, 0 ≤ c.1) → (calls.map Prod.fst).sum < p.cooldown →
      runPlayerCalls calls p = { p with cooldown := p.cooldown - (calls.map Prod.fst).sum }) ∧
    (∀ (p : Player) (calls : List (ℚ × List PEvent)) (dtF : ℚ) (es₁ es₂ : List PEvent)
        (k : PKey),
      inBoundsP p → 0 ≤ p.cooldown →
      (∀ c ∈ calls, 0 ≤ c.1 ∧ ∀ e ∈ c.2, e.isDirDown = false) →
      0 ≤ dtF → p.cooldown ≤ (calls.map Prod.fst).sum + dtF →
      (∀ e ∈ es₁, e.isDirDown = false) → (PEvent.keyDown k).isDirDown = true → p.step ≠ 0 →
      runPlayerCalls (calls ++ [(dtF, es₁ ++ PEvent.keyDown k :: es₂)]) p =
        Player.clampPos { p with x := p.x + ((dirDelta k p.step).1 : ℚ),
                                 y := p.y + ((dirDelta k p.step).2 : ℚ),
                                 cooldown := playerCooldownTime }) := by
  refine ⟨fun p dt es₁ es₂ k hcd h1 hk hstep => ⟨playerUpdate_accept dt es₁ es₂ k p hcd h1 hk hstep, ?_⟩,
    fun p dt es h => playerUpdate_blocked dt es p h,
    fun p calls hin hdts hsum => runCalls_blocked calls p hin hdts hsum,
    fun p calls dtF es₁ es₂ k hin h0 hcalls hdtF hsum h1 hk hstep =>
      runCalls_moveAgain p calls dtF es₁ es₂ k hin h0 hcalls hdtF hsum h1 hk hstep⟩
  cases k with
  | up => left; rfl
  | down => left; rfl
  | left => right; rfl
  | right => right; rfl
  | other => simp [PEvent.isDirDown] at hk

/-- A concrete player used to instantiate the step-movement claim. -/
def samplePlayer : Player :=
  { startX := 450
    startY := 665
    radius := 18
    speed := 420
    step := 70
    boundsLeft := 0
    boundsTop := 0
    boundsW := 900
    boundsH := 700
    x := 450
    y := 665
    cooldown := 0
    hasSprite := true }

theorem samplePlayer_inBounds : inBoundsP samplePlayer := by
  unfold inBoundsP Player.clampPos samplePlayer
  norm_num

/-- C8 witness: the four step/cooldown facts instantiated on a concrete
player, one accepted up-step, a blocked frame, a blocked frame sequence and
a re-accepted step after the cooldown elapsed. -/
theorem c8_step_movement_cooldown_witness :
    Player.update (1/60) ([] ++ PEvent.keyDown PKey.up :: []) samplePlayer =
      Player.clampPos { samplePlayer with
        x := samplePlayer.x + ((dirDelta PKey.up samplePlayer.step).1 : ℚ),
        y := samplePlayer.y + ((dirDelta PKey.up samplePlayer.step).2 : ℚ),
        cooldown := playerCooldownTime } ∧
    Player.update (1/60) [PEvent.keyDown PKey.up] { samplePlayer with cooldown := 9/100 } =
      Player.clampPos (Player.decCd (1/60) { samplePlayer with cooldown := 9/100 }) ∧
    runPlayerCalls [(1/60, [PEvent.keyDown PKey.left])] { samplePlayer with cooldown := 9/100 } =
      { samplePlayer with cooldown := 9/100 -
          (([(1/60, [PEvent.keyDown PKey.left])].map Prod.fst : List ℚ)).sum } ∧
    runPlayerCalls ([(1/60, [])] ++ [(1/10, [] ++ PEvent.keyDown PKey.up :: [])])
        { samplePlayer with cooldown := 9/100 } =
      Player.clampPos { { samplePlayer with cooldown := 9/100 } with
        x := samplePlayer.x + ((dirDelta PKey.up samplePlayer.step).1 : ℚ),
        y := samplePlayer.y + ((dirDelta PKey.up samplePlayer.step).2 : ℚ),
        cooldown := playerCooldownTime } :=
  ⟨(c8_step_movement_cooldown.1 samplePlayer (1/60) [] [] PKey.up
      (by norm_num [Player.decCd, samplePlayer, max_def]) (by simp) rfl
      (by norm_num [samplePlayer])).1,
   c8_step_movement_cooldown.2.1 { samplePlayer with cooldown := 9/100 } (1/60)
      [PEvent.keyDown PKey.up] (by norm_num [Player.decCd, max_def]),
   c8_step_movement_cooldown.2.2.1 { samplePlayer with cooldown := 9/100 }
      [(1/60, [PEvent.keyDown PKey.left])]
      (inBoundsP_cooldown _ samplePlayer_inBounds)
      (by norm_num) (by norm_num),
   c8_step_movement_cooldown.2.2.2 { samplePlayer with cooldown := 9/100 }
      [(1/60, [])] (1/10) [] [] PKey.up
      (inBoundsP_cooldown _ samplePlayer_inBounds) (by norm_num)
      (by norm_num) (by norm_num) (by norm_num) (by simp) rfl
      (by norm_num [samplePlayer])⟩
